import Mathlib

/-!
Verification development for the experiment-viewer backend: the context
normalizer (`normalizeContext`), the experiment listing endpoint, the per-id
experiment endpoint, and the design-asset endpoint.

Strings of the TypeScript source are modelled as lists of characters
(`Str := List Char`), so that `startsWith`, `endsWith`, `includes` become
`List.isPrefixOf`, `List.isSuffixOf`, `List.isInfixOf` on the character data.

Stage payload values (ideas, validations, architectures, designs, pitch
decks, ...) are opaque to all of the code modelled here: the normalizer only
tests whether each field is present and copies values verbatim.  They are
therefore modelled by a type parameter `V`; an absent-or-null JSON field is
`Option.none` (all payload values are JSON objects per the declared
interfaces, hence truthy, so JavaScript truthiness of a field coincides with
`Option.isSome`).
-/

/-- Character-list model of a JavaScript string. -/
abbrev Str : Type := List Char

/-- Embed a Lean string literal into the model. -/
def str (s : String) : Str := s.data

/-- `stage_outputs.idea_development` bundle, from the object literal built at
lines 22-28 of the per-id endpoint (fields `idea`, `research`,
`final_validation`, `legal_insights`, `refinement_feedback`). -/
structure IdeaDevelopmentOutput (V : Type) where
  idea : V
  research : Option V
  final_validation : Option V
  legal_insights : Option V
  refinement_feedback : Option V
deriving DecidableEq

/-- `stage_outputs.prototyping` bundle (lines 33-38: `architecture`,
`design`, `final_designs`, `prototype`). -/
structure PrototypingOutput (V : Type) where
  architecture : Option V
  design : Option V
  final_designs : Option V
  prototype : V
deriving DecidableEq

/-- `stage_outputs.pitch` bundle (lines 43-46: `marketing_strategies`,
`pitch_deck`). -/
structure PitchOutput (V : Type) where
  marketing_strategies : Option V
  pitch_deck : V
deriving DecidableEq

/-- The `stage_outputs` section: one optional entry per fixed stage. -/
structure StageOutputs (V : Type) where
  idea_development : Option (IdeaDevelopmentOutput V)
  prototyping : Option (PrototypingOutput V)
  pitch : Option (PitchOutput V)
deriving DecidableEq

/-- The empty `stage_outputs` object (`{}` default at line 18). -/
def StageOutputs.empty (V : Type) : StageOutputs V :=
  { idea_development := none, prototyping := none, pitch := none }

/-- The raw `state` section of a context document.  The fields read by the
normalizer are named; every other state field (current stage, logs,
counters, ...) is untouched by the code and collected in `rest` as generic
key-value data. -/
structure RawState (V : Type) where
  stage_outputs : Option (StageOutputs V)
  idea : Option V
  research : Option V
  research_final : Option V
  legal_insights : Option V
  refinement_feedback : Option V
  prototype : Option V
  architecture : Option V
  design : Option V
  final_designs : Option V
  pitch : Option V
  marketing_strategies : Option V
  rest : List (Str × V)
deriving DecidableEq

/-- A raw context document: `state` may be absent or null in a malformed
document (the code guards with `context?.state`). -/
structure ExperimentContext (V : Type) where
  state : Option (RawState V)
  stage_contexts : Option V
  history_length : Option Int
deriving DecidableEq

/-- Lines 21-29: populate `idea_development` from direct state if missing.
The guard `!stageOutputs.idea_development && state.idea` fires exactly when
the entry is absent and the legacy `idea` field is present;
`state.research_final || state.research` is `Option.orElse`;
`state.legal_insights ?? undefined` is the identity on the option model. -/
def backfillIdeaDevelopment (state : RawState V) (so : StageOutputs V) :
    StageOutputs V :=
  match so.idea_development, state.idea with
  | none, some i =>
      let entry : IdeaDevelopmentOutput V :=
        { idea := i
          research := state.research
          final_validation := state.research_final.orElse fun _ => state.research
          legal_insights := state.legal_insights
          refinement_feedback := state.refinement_feedback }
      { so with idea_development := some entry }
  | _, _ => so

/-- Lines 32-39: populate `prototyping` from direct state if missing. -/
def backfillPrototyping (state : RawState V) (so : StageOutputs V) :
    StageOutputs V :=
  match so.prototyping, state.prototype with
  | none, some p =>
      let entry : PrototypingOutput V :=
        { architecture := state.architecture
          design := state.design
          final_designs := state.final_designs
          prototype := p }
      { so with prototyping := some entry }
  | _, _ => so

/-- Lines 42-47: populate `pitch` from direct state if missing. -/
def backfillPitch (state : RawState V) (so : StageOutputs V) :
    StageOutputs V :=
  match so.pitch, state.pitch with
  | none, some p =>
      let entry : PitchOutput V :=
        { marketing_strategies := state.marketing_strategies
          pitch_deck := p }
      { so with pitch := some entry }
  | _, _ => so

/-- `normalizeContext` (per-id endpoint lines 14-56): if `state` is absent
return the input unchanged; otherwise take `state.stage_outputs || {}`, run
the three backfills in source order, and rebuild the document with the
resulting `stage_outputs` (the spreads `{...context, state: {...state, ...}}`
keep every other field). -/
def normalizeContext (context : ExperimentContext V) : ExperimentContext V :=
  match context.state with
  | none => context
  | some state =>
      let stageOutputs := state.stage_outputs.getD (StageOutputs.empty V)
      let stageOutputs := backfillIdeaDevelopment state stageOutputs
      let stageOutputs := backfillPrototyping state stageOutputs
      let stageOutputs := backfillPitch state stageOutputs
      { context with state := some { state with stage_outputs := some stageOutputs } }

/-- The composite backfill applied by `normalizeContext` when `state` is
present. -/
def normalizedStageOutputs {V : Type} (s : RawState V) : StageOutputs V :=
  backfillPitch s (backfillPrototyping s
    (backfillIdeaDevelopment s (s.stage_outputs.getD (StageOutputs.empty V))))


/-- Concrete legacy-shaped raw state used by the witnesses: `idea` and
`pitch` present, `research_final` present, everything else absent. -/
def legacyState : RawState Nat :=
  { stage_outputs := none, idea := some 1, research := none, research_final := some 2,
    legal_insights := none, refinement_feedback := none, prototype := none,
    architecture := none, design := none, final_designs := none, pitch := some 3,
    marketing_strategies := none, rest := [] }

/-- Concrete legacy-shaped raw document used by the witnesses. -/
def legacyCtx : ExperimentContext Nat :=
  { state := some legacyState, stage_contexts := none, history_length := some 5 }

/-- Concrete structured entry whose `idea` field differs from the legacy
`idea` field of `structuredState`. -/
def structuredEntry : IdeaDevelopmentOutput Nat :=
  { idea := 10, research := none, final_validation := some 11,
    legal_insights := none, refinement_feedback := none }

/-- Concrete `stage_outputs` with only the `idea_development` entry. -/
def structuredSO : StageOutputs Nat :=
  { idea_development := some structuredEntry, prototyping := none, pitch := none }

/-- Concrete raw state where `stage_outputs.idea_development` and a
conflicting legacy `idea` (99 vs 10) coexist. -/
def structuredState : RawState Nat :=
  { stage_outputs := some structuredSO, idea := some 99, research := some 98,
    research_final := some 97, legal_insights := none, refinement_feedback := none,
    prototype := none, architecture := none, design := none, final_designs := none,
    pitch := none, marketing_strategies := none, rest := [] }

/-- Concrete raw document for the C3 witness. -/
def structuredCtx : ExperimentContext Nat :=
  { state := some structuredState, stage_contexts := none, history_length := some 9 }

/-!
## Boundary operations

The listing endpoint (`/api/experiments`), the per-id endpoint
(`/api/experiments/[id]`) and the design-asset endpoint
(`/api/experiments/[id]/designs/[filename]`).

The filesystem is an explicit parameter: a directory listing is a list of
entries, file reads are functions returning `Option` (with `none` standing
for a thrown I/O or parse error).  `localeCompare`-based comparison of ids
is modelled as lexicographic comparison of the character lists (the two id
naming conventions use only ASCII letters, digits and underscores, on which
the default collation is the code-point order).
-/

/-- `f.endsWith('.json')`. -/
def isJsonDoc (f : Str) : Bool := (str ".json").isSuffixOf f

/-- The `type` field of a summary: `'full' | 'stage_run'`. -/
inductive ExpType
  | full
  | stage_run
deriving DecidableEq

/-- Listing endpoint, line 27:
`entry.name.startsWith('stage_run_') ? 'stage_run' : 'full'`. -/
def listType (id : Str) : ExpType :=
  if (str "stage_run_").isPrefixOf id then .stage_run else .full

/-- Per-id endpoint, line 71:
`params.id.startsWith('experiment_') ? 'full' : 'stage_run'`. -/
def getType (id : Str) : ExpType :=
  if (str "experiment_").isPrefixOf id then .full else .stage_run

/-- One entry of `readdir(EXPERIMENTS_DIR, {withFileTypes: true})`, together
with the listing and modification time of the corresponding directory. -/
structure DirListing where
  name : Str
  isDirectory : Bool
  files : List Str
  mtime : Str
deriving DecidableEq

/-- The summary object pushed for each experiment directory by the listing
endpoint (lines 25-33). -/
structure ExperimentSummary where
  id : Str
  type : ExpType
  hasStatistics : Bool
  hasCompleteContext : Bool
  hasResults : Bool
  contextFiles : List Str
  timestamp : Str
deriving DecidableEq

/-- Lines 16-33 of the listing endpoint, for one directory. -/
def mkSummary (name : Str) (files : List Str) (mtime : Str) : ExperimentSummary :=
  { id := name
    type := listType name
    hasStatistics := files.contains (str "statistics.json")
    hasCompleteContext := files.contains (str "context_final.json")
    hasResults := files.contains (str "results.json")
    contextFiles := files.filter isJsonDoc
    timestamp := mtime }

/-- Comparator of the final sort, line 37:
`experiments.sort((a, b) => b.id.localeCompare(a.id))` — descending on id. -/
def summaryGe (a b : ExperimentSummary) : Prop := b.id ≤ a.id

instance : DecidableRel summaryGe :=
  fun a b => inferInstanceAs (Decidable (b.id ≤ a.id))

instance : IsTotal ExperimentSummary summaryGe :=
  ⟨fun a b => le_total b.id a.id⟩

instance : IsTrans ExperimentSummary summaryGe :=
  ⟨fun _ _ _ h1 h2 => le_trans h2 h1⟩

/-- The listing endpoint `GET` (lines 8-44): keep directory entries whose
name does not start with a hidden-file dot, build a summary for each, sort
descending on id. -/
def listExperiments (entries : List DirListing) : List ExperimentSummary :=
  List.insertionSort summaryGe
    ((entries.filter fun e => e.isDirectory && !((str ".").isPrefixOf e.name)).map
      fun e => mkSummary e.name e.files e.mtime)

/-- `results.json` content: only the embedded `full_context` matters to the
per-id endpoint; the other bundle fields (`stage`, `input`, `success`,
`experiment_dir`, `stage_output`) are carried opaquely in `rest`. -/
structure StageRunResult (V : Type) where
  full_context : Option (ExperimentContext V)
  rest : List (Str × V)
deriving DecidableEq

/-- One experiment directory as seen by the per-id endpoint: its file
listing, its modification time, and the parsed content of its JSON
documents (`none` models a thrown read/parse error). -/
structure DirData (V : Type) where
  files : List Str
  mtime : Str
  readContext : Str → Option (ExperimentContext V)
  readResults : Option (StageRunResult V)

/-- The summary part of the per-id endpoint's response (lines 69-78),
including `subfolders` (files without a dot in their name). -/
structure ExperimentDetail where
  id : Str
  type : ExpType
  hasStatistics : Bool
  hasCompleteContext : Bool
  hasResults : Bool
  contextFiles : List Str
  timestamp : Str
  subfolders : List Str
deriving DecidableEq

/-- Lines 64-78 of the per-id endpoint. -/
def mkDetail (id : Str) (d : DirData V) : ExperimentDetail :=
  { id := id
    type := getType id
    hasStatistics := d.files.contains (str "statistics.json")
    hasCompleteContext := d.files.contains (str "context_final.json")
    hasResults := d.files.contains (str "results.json")
    contextFiles := d.files.filter isJsonDoc
    timestamp := d.mtime
    subfolders := d.files.filter fun f => !(f.contains '.') }

/-- What is attached to the summary in the per-id response body. -/
inductive GetPayload (V : Type)
  | context (c : ExperimentContext V)
  | results (r : StageRunResult V)
  | summaryOnly
deriving DecidableEq

/-- Response of the per-id endpoint: a JSON body, or an error body with an
HTTP status (the catch-all at lines 104-107 produces status 500). -/
inductive GetResponse (V : Type)
  | ok (e : ExperimentDetail) (p : GetPayload V)
  | failure (status : Nat) (message : Str)
deriving DecidableEq

/-- The try-block body of the per-id `GET` once the directory listing
succeeded (lines 61-103). -/
def getExperimentDir (id : Str) (d : DirData V) : GetResponse V :=
  let experiment := mkDetail id d
  if d.files.contains (str "context_final.json") then
    match d.readContext (str "context_final.json") with
    | none => .failure 500 (str "Failed to load experiment")
    | some ctx => .ok experiment (.context (normalizeContext ctx))
  else if d.files.contains (str "results.json") then
    match d.readResults with
    | none => .failure 500 (str "Failed to load experiment")
    | some r =>
        .ok experiment (.results { r with full_context := r.full_context.map normalizeContext })
  else
    match (d.files.filter isJsonDoc).find? (fun f => (str "context_").isPrefixOf f) with
    | some f =>
        match d.readContext f with
        | none => .failure 500 (str "Failed to load experiment")
        | some ctx => .ok experiment (.context (normalizeContext ctx))
    | none => .ok experiment .summaryOnly

/-- The per-id endpoint `GET` (lines 58-108): `readdir` on a missing
directory throws, and the catch-all turns every thrown error into the
single 500 response. -/
def getExperiment (id : Str) (fs : Str → Option (DirData V)) : GetResponse V :=
  match fs id with
  | none => .failure 500 (str "Failed to load experiment")
  | some d => getExperimentDir id d

/-- Modelled from the spec: the `NotFound` case of the error taxonomy
("missing directory or expected file") corresponds to an HTTP 404 status;
no route of the per-id endpoint produces it. -/
def notFoundStatus : Nat := 404

/-- JavaScript `hay.includes(needle)`: some contiguous segment of `hay`
equals `needle`. -/
def strIncludes (needle : Str) : Str → Bool
  | [] => needle.isPrefixOf []
  | c :: t => needle.isPrefixOf (c :: t) || strIncludes needle t

/-- Response of the design-asset endpoint: `error(400, ...)`,
`error(404, ...)`, or the image bytes with a content type. -/
inductive AssetResponse
  | badRequest (message : Str)
  | notFound (message : Str)
  | ok (body : Str) (contentType : Str)
deriving DecidableEq

/-- Lines 27-35 of the asset endpoint: content type from the lowercased
final extension, with `image/png` as the default. -/
def contentTypeOf (filename : Str) : Str :=
  let ext := ((filename.map Char.toLower).splitOn '.').getLastD []
  if ext = str "jpg" ∨ ext = str "jpeg" then str "image/jpeg"
  else if ext = str "gif" then str "image/gif"
  else if ext = str "webp" then str "image/webp"
  else str "image/png"

/-- The design-asset endpoint `GET` (asset endpoint lines 8-46).  `fsRead`
is the filesystem (`none` = `access`/`readFile` throws); the second
component of the result records every path the handler touched, so "no
filesystem access" is an empty trace. -/
def getDesignAsset (root : Str) (fsRead : Str → Option Str) (id filename : Str) :
    AssetResponse × List Str :=
  if id.isEmpty || filename.isEmpty then
    (.badRequest (str "Missing experiment ID or filename"), [])
  else if strIncludes (str "..") id || strIncludes (str "..") filename then
    (.badRequest (str "Invalid path"), [])
  else
    let imagePath := root ++ str "/" ++ id ++ str "/designs/" ++ filename
    match fsRead imagePath with
    | none => (.notFound (str "Image not found"), [imagePath])
    | some buf => (.ok buf (contentTypeOf filename), [imagePath])

/-- Concrete raw document for the C10 witness. -/
def frameCtx : ExperimentContext Nat :=
  { state := some legacyState, stage_contexts := some 7, history_length := some 4 }


/-- Directory entry with the earlier date suffix. -/
def earlierEntry : DirListing :=
  { name := str "experiment_20240101_000000", isDirectory := true, files := [],
    mtime := str "t1" }

/-- Directory entry with the later date suffix. -/
def laterEntry : DirListing :=
  { name := str "experiment_20240102_000000", isDirectory := true, files := [],
    mtime := str "t2" }

/-- A well-formed-but-empty context document for the C5 witness. -/
def finalDoc : ExperimentContext Nat :=
  { state := none, stage_contexts := none, history_length := none }

/-- A directory holding both `context_final.json` and `results.json`. -/
def finalDir : DirData Nat :=
  { files := [str "context_final.json", str "results.json"]
    mtime := str "t"
    readContext := fun _ => some finalDoc
    readResults := some { full_context := none, rest := [] } }

/-- A filesystem resolving every id to `finalDir`. -/
def finalFs : Str → Option (DirData Nat) := fun _ => some finalDir

/-- Distinguishable context documents for the two stage-context files of the
unsorted directory. -/
def docA : ExperimentContext Nat :=
  { state := none, stage_contexts := none, history_length := some 1 }

/-- See `docA`. -/
def docB : ExperimentContext Nat :=
  { state := none, stage_contexts := none, history_length := some 2 }

/-- A directory whose listing is not lexically sorted: `context_b.json`
comes before `context_a.json`, with no final context and no results
bundle. -/
def unsortedDir : DirData Nat :=
  { files := [str "context_b.json", str "context_a.json"]
    mtime := str "t"
    readContext := fun f => if f = str "context_a.json" then some docA else some docB
    readResults := none }

/-- A filesystem resolving every id to `unsortedDir`. -/
def unsortedFs : Str → Option (DirData Nat) := fun _ => some unsortedDir

/-- A filesystem under which every path reads successfully, showing the
rejection is independent of what is on disk. -/
def travFs : Str → Option Str := fun _ => some (str "secret")

section NormalizerLemmas

variable {V : Type}

@[simp] theorem backfillIdeaDevelopment_prototyping (s : RawState V) (so : StageOutputs V) :
    (backfillIdeaDevelopment s so).prototyping = so.prototyping := by
  cases h1 : so.idea_development <;> cases h2 : s.idea <;>
    simp [backfillIdeaDevelopment, h1, h2]

@[simp] theorem backfillIdeaDevelopment_pitch (s : RawState V) (so : StageOutputs V) :
    (backfillIdeaDevelopment s so).pitch = so.pitch := by
  cases h1 : so.idea_development <;> cases h2 : s.idea <;>
    simp [backfillIdeaDevelopment, h1, h2]

@[simp] theorem backfillPrototyping_idea_development (s : RawState V) (so : StageOutputs V) :
    (backfillPrototyping s so).idea_development = so.idea_development := by
  cases h1 : so.prototyping <;> cases h2 : s.prototype <;>
    simp [backfillPrototyping, h1, h2]

@[simp] theorem backfillPrototyping_pitch (s : RawState V) (so : StageOutputs V) :
    (backfillPrototyping s so).pitch = so.pitch := by
  cases h1 : so.prototyping <;> cases h2 : s.prototype <;>
    simp [backfillPrototyping, h1, h2]

@[simp] theorem backfillPitch_idea_development (s : RawState V) (so : StageOutputs V) :
    (backfillPitch s so).idea_development = so.idea_development := by
  cases h1 : so.pitch <;> cases h2 : s.pitch <;>
    simp [backfillPitch, h1, h2]

@[simp] theorem backfillPitch_prototyping (s : RawState V) (so : StageOutputs V) :
    (backfillPitch s so).prototyping = so.prototyping := by
  cases h1 : so.pitch <;> cases h2 : s.pitch <;>
    simp [backfillPitch, h1, h2]

theorem backfillIdeaDevelopment_isSome (s : RawState V) (so : StageOutputs V) :
    (backfillIdeaDevelopment s so).idea_development.isSome
      = (so.idea_development.isSome || s.idea.isSome) := by
  cases h1 : so.idea_development <;> cases h2 : s.idea <;>
    simp [backfillIdeaDevelopment, h1, h2]

theorem backfillPrototyping_isSome (s : RawState V) (so : StageOutputs V) :
    (backfillPrototyping s so).prototyping.isSome
      = (so.prototyping.isSome || s.prototype.isSome) := by
  cases h1 : so.prototyping <;> cases h2 : s.prototype <;>
    simp [backfillPrototyping, h1, h2]

theorem backfillPitch_isSome (s : RawState V) (so : StageOutputs V) :
    (backfillPitch s so).pitch.isSome
      = (so.pitch.isSome || s.pitch.isSome) := by
  cases h1 : so.pitch <;> cases h2 : s.pitch <;>
    simp [backfillPitch, h1, h2]

theorem backfillIdeaDevelopment_of_some (s : RawState V) (so : StageOutputs V)
    (h : so.idea_development.isSome = true) : backfillIdeaDevelopment s so = so := by
  cases h1 : so.idea_development <;> cases h2 : s.idea <;>
    simp_all [backfillIdeaDevelopment]

theorem backfillPrototyping_of_some (s : RawState V) (so : StageOutputs V)
    (h : so.prototyping.isSome = true) : backfillPrototyping s so = so := by
  cases h1 : so.prototyping <;> cases h2 : s.prototype <;>
    simp_all [backfillPrototyping]

theorem backfillPitch_of_some (s : RawState V) (so : StageOutputs V)
    (h : so.pitch.isSome = true) : backfillPitch s so = so := by
  cases h1 : so.pitch <;> cases h2 : s.pitch <;>
    simp_all [backfillPitch]

theorem backfillIdeaDevelopment_of_no_legacy (s : RawState V) (so : StageOutputs V)
    (h : s.idea = none) : backfillIdeaDevelopment s so = so := by
  cases h1 : so.idea_development <;> simp [backfillIdeaDevelopment, h1, h]

theorem backfillPrototyping_of_no_legacy (s : RawState V) (so : StageOutputs V)
    (h : s.prototype = none) : backfillPrototyping s so = so := by
  cases h1 : so.prototyping <;> simp [backfillPrototyping, h1, h]

theorem backfillPitch_of_no_legacy (s : RawState V) (so : StageOutputs V)
    (h : s.pitch = none) : backfillPitch s so = so := by
  cases h1 : so.pitch <;> simp [backfillPitch, h1, h]

theorem normalizeContext_of_state_none (c : ExperimentContext V)
    (h : c.state = none) : normalizeContext c = c := by
  simp [normalizeContext, h]

theorem normalizeContext_of_state_some (c : ExperimentContext V) (s : RawState V)
    (h : c.state = some s) :
    normalizeContext c
      = { c with state := some { s with stage_outputs := some (normalizedStageOutputs s) } } := by
  simp [normalizeContext, h, normalizedStageOutputs]

theorem normalizedStageOutputs_idea_development (s : RawState V) :
    (normalizedStageOutputs s).idea_development
      = (backfillIdeaDevelopment s (s.stage_outputs.getD (StageOutputs.empty V))).idea_development := by
  simp [normalizedStageOutputs]

theorem backfillPrototyping_congr (s : RawState V) (so so' : StageOutputs V)
    (h : so.prototyping = so'.prototyping) :
    (backfillPrototyping s so).prototyping = (backfillPrototyping s so').prototyping := by
  cases h1 : so'.prototyping <;> cases h2 : s.prototype <;>
    rw [h1] at h <;> simp_all [backfillPrototyping]

theorem backfillPitch_congr (s : RawState V) (so so' : StageOutputs V)
    (h : so.pitch = so'.pitch) :
    (backfillPitch s so).pitch = (backfillPitch s so').pitch := by
  cases h1 : so'.pitch <;> cases h2 : s.pitch <;>
    rw [h1] at h <;> simp_all [backfillPitch]

theorem normalizedStageOutputs_prototyping (s : RawState V) :
    (normalizedStageOutputs s).prototyping
      = (backfillPrototyping s (s.stage_outputs.getD (StageOutputs.empty V))).prototyping := by
  unfold normalizedStageOutputs
  rw [backfillPitch_prototyping]
  exact backfillPrototyping_congr s _ _ (backfillIdeaDevelopment_prototyping s _)

theorem normalizedStageOutputs_pitch (s : RawState V) :
    (normalizedStageOutputs s).pitch
      = (backfillPitch s (s.stage_outputs.getD (StageOutputs.empty V))).pitch := by
  unfold normalizedStageOutputs
  refine backfillPitch_congr s _ _ ?_
  rw [backfillPrototyping_pitch]
  exact backfillIdeaDevelopment_pitch s _

theorem getD_idea_development (s : RawState V) :
    ((s.stage_outputs.getD (StageOutputs.empty V)).idea_development).isSome
      = s.stage_outputs.elim false fun so => so.idea_development.isSome := by
  cases s.stage_outputs <;> simp [StageOutputs.empty]

theorem getD_prototyping (s : RawState V) :
    ((s.stage_outputs.getD (StageOutputs.empty V)).prototyping).isSome
      = s.stage_outputs.elim false fun so => so.prototyping.isSome := by
  cases s.stage_outputs <;> simp [StageOutputs.empty]

theorem getD_pitch (s : RawState V) :
    ((s.stage_outputs.getD (StageOutputs.empty V)).pitch).isSome
      = s.stage_outputs.elim false fun so => so.pitch.isSome := by
  cases s.stage_outputs <;> simp [StageOutputs.empty]

theorem normalizedStageOutputs_idem (s : RawState V) :
    backfillPitch s (backfillPrototyping s
        (backfillIdeaDevelopment s (normalizedStageOutputs s)))
      = normalizedStageOutputs s := by
  have h1 : backfillIdeaDevelopment s (normalizedStageOutputs s) = normalizedStageOutputs s := by
    cases hs : s.idea with
    | none => exact backfillIdeaDevelopment_of_no_legacy s _ hs
    | some v =>
      apply backfillIdeaDevelopment_of_some
      rw [normalizedStageOutputs_idea_development, backfillIdeaDevelopment_isSome, hs]
      simp
  have h2 : backfillPrototyping s (normalizedStageOutputs s) = normalizedStageOutputs s := by
    cases hs : s.prototype with
    | none => exact backfillPrototyping_of_no_legacy s _ hs
    | some v =>
      apply backfillPrototyping_of_some
      rw [normalizedStageOutputs_prototyping, backfillPrototyping_isSome, hs]
      simp
  have h3 : backfillPitch s (normalizedStageOutputs s) = normalizedStageOutputs s := by
    cases hs : s.pitch with
    | none => exact backfillPitch_of_no_legacy s _ hs
    | some v =>
      apply backfillPitch_of_some
      rw [normalizedStageOutputs_pitch, backfillPitch_isSome, hs]
      simp
  rw [h1, h2, h3]

theorem normalizedStageOutputs_update (s : RawState V) :
    normalizedStageOutputs { s with stage_outputs := some (normalizedStageOutputs s) }
      = normalizedStageOutputs s := by
  have h : normalizedStageOutputs { s with stage_outputs := some (normalizedStageOutputs s) }
      = backfillPitch s (backfillPrototyping s
          (backfillIdeaDevelopment s (normalizedStageOutputs s))) := rfl
  rw [h]
  exact normalizedStageOutputs_idem s

end NormalizerLemmas

/-- C1.  After `normalizeContext`, on any raw context whose `state` section is
present, the `stage_outputs` entry of each of the three fixed stages is
present iff it was present in the raw document or the corresponding legacy
indicator field (`idea`, `prototype`, `pitch` respectively) was present in
the raw state. -/
theorem normalize_stage_presence_iff_raw_or_legacy {V : Type}
    (c : ExperimentContext V) (s : RawState V) (h : c.state = some s) :
    ∃ s' so', (normalizeContext c).state = some s' ∧ s'.stage_outputs = some so'
      ∧ so'.idea_development.isSome
          = ((s.stage_outputs.elim false fun so => so.idea_development.isSome) || s.idea.isSome)
      ∧ so'.prototyping.isSome
          = ((s.stage_outputs.elim false fun so => so.prototyping.isSome) || s.prototype.isSome)
      ∧ so'.pitch.isSome
          = ((s.stage_outputs.elim false fun so => so.pitch.isSome) || s.pitch.isSome) := by
  refine ⟨_, normalizedStageOutputs s, by rw [normalizeContext_of_state_some c s h], rfl,
    ?_, ?_, ?_⟩
  · rw [normalizedStageOutputs_idea_development, backfillIdeaDevelopment_isSome,
      getD_idea_development]
  · rw [normalizedStageOutputs_prototyping, backfillPrototyping_isSome, getD_prototyping]
  · rw [normalizedStageOutputs_pitch, backfillPitch_isSome, getD_pitch]

/-- Witness for C1 at a concrete legacy document. -/
theorem normalize_stage_presence_iff_raw_or_legacy_witness :
    legacyCtx.state = some legacyState
      ∧ ∃ s' so', (normalizeContext legacyCtx).state = some s'
        ∧ s'.stage_outputs = some so'
        ∧ so'.idea_development.isSome
            = ((legacyState.stage_outputs.elim false fun so => so.idea_development.isSome)
                || legacyState.idea.isSome)
        ∧ so'.prototyping.isSome
            = ((legacyState.stage_outputs.elim false fun so => so.prototyping.isSome)
                || legacyState.prototype.isSome)
        ∧ so'.pitch.isSome
            = ((legacyState.stage_outputs.elim false fun so => so.pitch.isSome)
                || legacyState.pitch.isSome) :=
  ⟨rfl, normalize_stage_presence_iff_raw_or_legacy legacyCtx legacyState rfl⟩

/-- C2.  `normalizeContext` is idempotent: applying it to its own output
changes nothing, for every well-formed or malformed input. -/
theorem normalizeContext_idempotent {V : Type} (c : ExperimentContext V) :
    normalizeContext (normalizeContext c) = normalizeContext c := by
  cases hc : c.state with
  | none =>
    rw [normalizeContext_of_state_none c hc]
    exact normalizeContext_of_state_none c hc
  | some s =>
    have hs1 : (normalizeContext c).state
        = some { s with stage_outputs := some (normalizedStageOutputs s) } := by
      rw [normalizeContext_of_state_some c s hc]
    rw [normalizeContext_of_state_some _ _ hs1, normalizeContext_of_state_some c s hc,
      normalizedStageOutputs_update s]

/-- C3.  Normalization never removes or overwrites an existing
`stage_outputs` entry, even when legacy flat fields are also present with
different values. -/
theorem normalize_preserves_existing_stage_outputs {V : Type}
    (c : ExperimentContext V) (s : RawState V) (so : StageOutputs V)
    (h : c.state = some s) (hso : s.stage_outputs = some so) :
    ∃ s' so', (normalizeContext c).state = some s' ∧ s'.stage_outputs = some so'
      ∧ (∀ a, so.idea_development = some a → so'.idea_development = some a)
      ∧ (∀ p, so.prototyping = some p → so'.prototyping = some p)
      ∧ (∀ q, so.pitch = some q → so'.pitch = some q) := by
  have hgd : s.stage_outputs.getD (StageOutputs.empty V) = so := by rw [hso]; rfl
  refine ⟨_, normalizedStageOutputs s, by rw [normalizeContext_of_state_some c s h], rfl,
    ?_, ?_, ?_⟩
  · intro a ha
    rw [normalizedStageOutputs_idea_development, hgd,
      backfillIdeaDevelopment_of_some s so (by rw [ha]; rfl)]
    exact ha
  · intro p hp
    rw [normalizedStageOutputs_prototyping, hgd,
      backfillPrototyping_of_some s so (by rw [hp]; rfl)]
    exact hp
  · intro q hq
    rw [normalizedStageOutputs_pitch, hgd,
      backfillPitch_of_some s so (by rw [hq]; rfl)]
    exact hq

/-- Witness for C3: the pre-existing entry (idea 10) survives although the
legacy `idea` field holds a different value (99). -/
theorem normalize_preserves_existing_stage_outputs_witness :
    structuredCtx.state = some structuredState
      ∧ structuredState.stage_outputs = some structuredSO
      ∧ ∃ s' so', (normalizeContext structuredCtx).state = some s'
        ∧ s'.stage_outputs = some so'
        ∧ (∀ a, structuredSO.idea_development = some a → so'.idea_development = some a)
        ∧ (∀ p, structuredSO.prototyping = some p → so'.prototyping = some p)
        ∧ (∀ q, structuredSO.pitch = some q → so'.pitch = some q) :=
  ⟨rfl, rfl,
    normalize_preserves_existing_stage_outputs structuredCtx structuredState structuredSO rfl rfl⟩

/-- C4.  With legacy `idea = I`, no `stage_outputs`, and `research_final`
present with value `V0`, normalization synthesizes
`stage_outputs.idea_development` with `idea = I` and `final_validation = V0`
(carrying `research`, `legal_insights` and `refinement_feedback` through
verbatim); when `research_final` is absent, the plain `research` field is
used as `final_validation` instead. -/
theorem normalize_backfills_idea_development {V : Type}
    (c : ExperimentContext V) (s : RawState V) (i : V)
    (h : c.state = some s) (hso : s.stage_outputs = none) (hidea : s.idea = some i) :
    (∀ v, s.research_final = some v →
      ∃ s' so', (normalizeContext c).state = some s' ∧ s'.stage_outputs = some so'
        ∧ so'.idea_development = some
            { idea := i, research := s.research, final_validation := some v,
              legal_insights := s.legal_insights,
              refinement_feedback := s.refinement_feedback })
    ∧ (s.research_final = none →
      ∃ s' so', (normalizeContext c).state = some s' ∧ s'.stage_outputs = some so'
        ∧ so'.idea_development = some
            { idea := i, research := s.research, final_validation := s.research,
              legal_insights := s.legal_insights,
              refinement_feedback := s.refinement_feedback }) := by
  have hbundle : (normalizedStageOutputs s).idea_development
      = some { idea := i, research := s.research,
               final_validation := s.research_final.orElse fun _ => s.research,
               legal_insights := s.legal_insights,
               refinement_feedback := s.refinement_feedback } := by
    rw [normalizedStageOutputs_idea_development, hso]
    simp [backfillIdeaDevelopment, StageOutputs.empty, hidea]
  constructor
  · intro v hv
    refine ⟨_, normalizedStageOutputs s, by rw [normalizeContext_of_state_some c s h], rfl, ?_⟩
    rw [hbundle, hv]
    rfl
  · intro hv
    refine ⟨_, normalizedStageOutputs s, by rw [normalizeContext_of_state_some c s h], rfl, ?_⟩
    rw [hbundle, hv]
    rfl

/-- Witness for C4 at the concrete legacy document (`idea = 1`,
`research_final = 2`, no `stage_outputs`): the synthesized bundle is
exactly `{idea := 1, final_validation := 2}` with the remaining fields
absent. -/
theorem normalize_backfills_idea_development_witness :
    ∃ s' so', (normalizeContext legacyCtx).state = some s'
      ∧ s'.stage_outputs = some so'
      ∧ so'.idea_development = some
          { idea := 1, research := none, final_validation := some 2,
            legal_insights := none, refinement_feedback := none } :=
  (normalize_backfills_idea_development legacyCtx legacyState 1 rfl rfl rfl).1 2 rfl

/-- C10.  `normalizeContext` changes nothing besides `state.stage_outputs`:
every other state field, and the top-level `stage_contexts` and
`history_length`, keep their input values. -/
theorem normalize_frame {V : Type} (c : ExperimentContext V) (s : RawState V)
    (h : c.state = some s) :
    ∃ s', (normalizeContext c).state = some s'
      ∧ (normalizeContext c).stage_contexts = c.stage_contexts
      ∧ (normalizeContext c).history_length = c.history_length
      ∧ s'.idea = s.idea ∧ s'.research = s.research ∧ s'.research_final = s.research_final
      ∧ s'.legal_insights = s.legal_insights
      ∧ s'.refinement_feedback = s.refinement_feedback
      ∧ s'.prototype = s.prototype ∧ s'.architecture = s.architecture
      ∧ s'.design = s.design ∧ s'.final_designs = s.final_designs
      ∧ s'.pitch = s.pitch ∧ s'.marketing_strategies = s.marketing_strategies
      ∧ s'.rest = s.rest := by
  rw [normalizeContext_of_state_some c s h]
  exact ⟨_, rfl, rfl, rfl, rfl, rfl, rfl, rfl, rfl, rfl, rfl, rfl, rfl, rfl, rfl, rfl⟩

/-- Witness for C10 at a concrete document. -/
theorem normalize_frame_witness :
    frameCtx.state = some legacyState
      ∧ ∃ s', (normalizeContext frameCtx).state = some s'
        ∧ (normalizeContext frameCtx).stage_contexts = frameCtx.stage_contexts
        ∧ (normalizeContext frameCtx).history_length = frameCtx.history_length
        ∧ s'.idea = legacyState.idea ∧ s'.research = legacyState.research
        ∧ s'.research_final = legacyState.research_final
        ∧ s'.legal_insights = legacyState.legal_insights
        ∧ s'.refinement_feedback = legacyState.refinement_feedback
        ∧ s'.prototype = legacyState.prototype
        ∧ s'.architecture = legacyState.architecture
        ∧ s'.design = legacyState.design ∧ s'.final_designs = legacyState.final_designs
        ∧ s'.pitch = legacyState.pitch
        ∧ s'.marketing_strategies = legacyState.marketing_strategies
        ∧ s'.rest = legacyState.rest :=
  ⟨rfl, normalize_frame frameCtx legacyState rfl⟩

/-- `find?` on a `Pairwise r` list returns a match related by `r` to every
other match. -/
theorem find?_first {α : Type} {p : α → Bool} {l : List α} {f : α} {r : α → α → Prop}
    (hs : l.Pairwise r) (hf : l.find? p = some f) :
    f ∈ l ∧ p f = true ∧ ∀ g ∈ l, p g = true → f = g ∨ r f g := by
  induction l with
  | nil => simp at hf
  | cons x t ih =>
    rw [List.find?_cons] at hf
    cases hx : p x with
    | true =>
      rw [hx] at hf
      simp at hf
      subst hf
      refine ⟨List.mem_cons_self x t, hx, ?_⟩
      intro g hg hpg
      rcases List.mem_cons.mp hg with rfl | hg'
      · exact Or.inl rfl
      · exact Or.inr ((List.pairwise_cons.mp hs).1 g hg')
    | false =>
      rw [hx] at hf
      simp at hf
      obtain ⟨hm, hp, hmin⟩ := ih hs.of_cons hf
      refine ⟨List.mem_cons_of_mem x hm, hp, ?_⟩
      intro g hg hpg
      rcases List.mem_cons.mp hg with rfl | hg'
      · rw [hx] at hpg
        exact absurd hpg (by simp)
      · exact hmin g hg' hpg

/-- In a `Pairwise r` list, any element is related to any later element. -/
theorem pairwise_decomp {α : Type} {r : α → α → Prop} {l pre mid suf : List α} {x y : α}
    (h : l.Pairwise r) (hd : l = pre ++ x :: mid ++ y :: suf) : r x y := by
  subst hd
  exact (List.pairwise_append.mp h).2.2 x
    (List.mem_append_right pre (List.mem_cons_self x mid)) y (List.mem_cons_self y suf)

theorem getExperiment_eq_of_fs_some {V : Type} (id : Str)
    (fs : Str → Option (DirData V)) (d : DirData V) (h : fs id = some d) :
    getExperiment id fs = getExperimentDir id d := by
  unfold getExperiment
  rw [h]

/-- `find?` returns the head of the first matching position. -/
theorem find?_append_first {α : Type} {q : α → Bool} {pre suf : List α} {f : α}
    (hpre : ∀ g ∈ pre, q g = false) (hf : q f = true) :
    (pre ++ f :: suf).find? q = some f := by
  induction pre with
  | nil => simp [List.find?_cons, hf]
  | cons x t ih =>
    have hx := hpre x (List.mem_cons_self x t)
    rw [List.cons_append, List.find?_cons, hx]
    exact ih fun g hg => hpre g (List.mem_cons_of_mem x hg)

theorem stage_run_prefix_false_of_experiment {id : Str}
    (h : (str "experiment_").isPrefixOf id = true) :
    (str "stage_run_").isPrefixOf id = false := by
  cases hq : (str "stage_run_").isPrefixOf id with
  | false => rfl
  | true =>
    exfalso
    rw [List.isPrefixOf_iff_prefix] at h hq
    obtain ⟨t1, h1⟩ := h
    obtain ⟨t2, h2⟩ := hq
    have he : id.head? = some 'e' := by rw [← h1]; rfl
    have hs : id.head? = some 's' := by rw [← h2]; rfl
    rw [he] at hs
    exact absurd hs (by decide)

theorem experiment_prefix_false_of_stage_run {id : Str}
    (h : (str "stage_run_").isPrefixOf id = true) :
    (str "experiment_").isPrefixOf id = false := by
  cases hq : (str "experiment_").isPrefixOf id with
  | false => rfl
  | true =>
    exfalso
    rw [List.isPrefixOf_iff_prefix] at h hq
    obtain ⟨t1, h1⟩ := h
    obtain ⟨t2, h2⟩ := hq
    have hs : id.head? = some 's' := by rw [← h1]; rfl
    have he : id.head? = some 'e' := by rw [← h2]; rfl
    rw [hs] at he
    exact absurd he (by decide)

/-- C6, counterexample.  On the id `"foo"`, which begins with neither naming
prefix, the per-id endpoint reports `stage_run` although the id does not
begin with the stage-run prefix, and the two endpoints disagree. -/
theorem endpoint_kind_claim_counterexample :
    getType (str "foo") = ExpType.stage_run
    ∧ (str "stage_run_").isPrefixOf (str "foo") = false
    ∧ listType (str "foo") = ExpType.full
    ∧ ¬ listType (str "foo") = getType (str "foo") := by decide

/-- C6, amended.  The listing endpoint reports `stage_run` iff the id begins
with the stage-run prefix `stage_run_`; the per-id endpoint reports `full`
iff the id begins with `experiment_` and `stage_run` otherwise; the two
classifications agree on every id that begins with either naming prefix
(but can differ on ids beginning with neither, as the counterexample
shows). -/
theorem endpoint_kind_agreement (id : Str) :
    (listType id = ExpType.stage_run ↔ (str "stage_run_").isPrefixOf id = true)
    ∧ (getType id = ExpType.full ↔ (str "experiment_").isPrefixOf id = true)
    ∧ ((str "experiment_").isPrefixOf id = true ∨ (str "stage_run_").isPrefixOf id = true
        → listType id = getType id) := by
  refine ⟨?_, ?_, ?_⟩
  · by_cases hp : (str "stage_run_").isPrefixOf id = true
    · simp [listType, hp]
    · simp [listType, hp]
  · by_cases hp : (str "experiment_").isPrefixOf id = true
    · simp [getType, hp]
    · simp [getType, hp]
  · rintro (he | hs)
    · have hs' := stage_run_prefix_false_of_experiment he
      simp [listType, getType, he, hs']
    · have he' := experiment_prefix_false_of_stage_run hs
      simp [listType, getType, hs, he']

/-- Witness for the amended C6 at a concrete prefixed id. -/
theorem endpoint_kind_agreement_witness :
    ((str "experiment_").isPrefixOf (str "experiment_a") = true
      ∨ (str "stage_run_").isPrefixOf (str "experiment_a") = true)
    ∧ listType (str "experiment_a") = getType (str "experiment_a") :=
  ⟨Or.inl (by decide), (endpoint_kind_agreement (str "experiment_a")).2.2 (Or.inl (by decide))⟩

/-- C9.  `listExperiments` returns the summaries of the non-hidden
directories sorted in descending lexical order on id: the output is
pairwise descending, it is a permutation of the unsorted summaries, and
whenever one summary appears anywhere before another in the output the
later-placed one has the lexically smaller id (so of two ids differing only
in their zero-padded date-time suffix, the later date comes first). -/
theorem listExperiments_sorted (entries : List DirListing) :
    (listExperiments entries).Pairwise summaryGe
    ∧ (listExperiments entries).Perm
        ((entries.filter fun e => e.isDirectory && !((str ".").isPrefixOf e.name)).map
          fun e => mkSummary e.name e.files e.mtime)
    ∧ ∀ (x y : ExperimentSummary) (pre mid suf : List ExperimentSummary),
        listExperiments entries = pre ++ x :: mid ++ y :: suf → y.id ≤ x.id := by
  refine ⟨List.sorted_insertionSort summaryGe _, List.perm_insertionSort summaryGe _, ?_⟩
  intro x y pre mid suf hd
  exact pairwise_decomp (r := summaryGe) (List.sorted_insertionSort summaryGe _) hd


/-- Witness for C9: on a listing holding the earlier-dated directory first,
the sorted output places the later-dated summary first. -/
theorem listExperiments_sorted_witness :
    (mkSummary (str "experiment_20240101_000000") [] (str "t1")).id
      ≤ (mkSummary (str "experiment_20240102_000000") [] (str "t2")).id :=
  (listExperiments_sorted [earlierEntry, laterEntry]).2.2
    (mkSummary (str "experiment_20240102_000000") [] (str "t2"))
    (mkSummary (str "experiment_20240101_000000") [] (str "t1"))
    [] [] [] (by decide)

/-- C5, amended.  The per-id endpoint selects the raw context document by
fixed precedence with first match winning: `context_final.json` if present;
otherwise `results.json` (whose embedded full context, when present, is
normalized); otherwise the first remaining stage-context document
(`context_*.json`) in directory-listing order — which is the lexically
first one when the directory listing is lexically sorted; and with no
context document at all it still returns the summary alone rather than an
error. -/
theorem getExperiment_source_precedence {V : Type} (id : Str)
    (fs : Str → Option (DirData V)) (d : DirData V) (h : fs id = some d) :
    (d.files.contains (str "context_final.json") = true →
      ∀ c, d.readContext (str "context_final.json") = some c →
        getExperiment id fs
          = GetResponse.ok (mkDetail id d) (GetPayload.context (normalizeContext c)))
    ∧ (d.files.contains (str "context_final.json") = false →
       d.files.contains (str "results.json") = true →
      ∀ r, d.readResults = some r →
        getExperiment id fs
          = GetResponse.ok (mkDetail id d)
              (GetPayload.results { r with full_context := r.full_context.map normalizeContext }))
    ∧ (d.files.contains (str "context_final.json") = false →
       d.files.contains (str "results.json") = false →
      ∀ pre f suf, d.files = pre ++ f :: suf →
        (isJsonDoc f && (str "context_").isPrefixOf f) = true →
        (∀ g ∈ pre, (isJsonDoc g && (str "context_").isPrefixOf g) = false) →
        ∀ c, d.readContext f = some c →
          getExperiment id fs
            = GetResponse.ok (mkDetail id d) (GetPayload.context (normalizeContext c)))
    ∧ (d.files.contains (str "context_final.json") = false →
       d.files.contains (str "results.json") = false →
       d.files.Pairwise (fun a b => a ≤ b) →
      ∀ f, (d.files.filter isJsonDoc).find? (fun g => (str "context_").isPrefixOf g) = some f →
        f ∈ d.files ∧ isJsonDoc f = true ∧ (str "context_").isPrefixOf f = true
          ∧ (∀ g ∈ d.files, isJsonDoc g = true → (str "context_").isPrefixOf g = true → f ≤ g)
          ∧ ∀ c, d.readContext f = some c →
              getExperiment id fs
                = GetResponse.ok (mkDetail id d) (GetPayload.context (normalizeContext c)))
    ∧ (d.files.contains (str "context_final.json") = false →
       d.files.contains (str "results.json") = false →
       (∀ g ∈ d.files, (isJsonDoc g && (str "context_").isPrefixOf g) = false) →
        getExperiment id fs = GetResponse.ok (mkDetail id d) GetPayload.summaryOnly) := by
  rw [getExperiment_eq_of_fs_some id fs d h]
  refine ⟨?_, ?_, ?_, ?_, ?_⟩
  · intro hfin c hc
    have hfin' : (str "context_final.json") ∈ d.files := by simpa using hfin
    simp [getExperimentDir, hfin', hc]
  · intro hfin hres r hr
    have hfin' : ¬ (str "context_final.json") ∈ d.files := by simpa using hfin
    have hres' : (str "results.json") ∈ d.files := by simpa using hres
    simp [getExperimentDir, hfin', hres', hr]
  · intro hfin hres pre f suf hdec hmatch hpre c hc
    have hfin' : ¬ (str "context_final.json") ∈ d.files := by simpa using hfin
    have hres' : ¬ (str "results.json") ∈ d.files := by simpa using hres
    have hm := hmatch
    simp only [Bool.and_eq_true] at hm
    have hj : isJsonDoc f = true := hm.1
    have hq : (str "context_").isPrefixOf f = true := hm.2
    have hfilter : d.files.filter isJsonDoc
        = pre.filter isJsonDoc ++ f :: suf.filter isJsonDoc := by
      rw [hdec, List.filter_append]
      simp [List.filter_cons, hj]
    have hfind : (d.files.filter isJsonDoc).find?
        (fun g => (str "context_").isPrefixOf g) = some f := by
      rw [hfilter]
      refine find?_append_first ?_ hq
      intro g hg
      have hg' := List.mem_filter.mp hg
      have hb := hpre g hg'.1
      rw [hg'.2] at hb
      simpa using hb
    simp [getExperimentDir, hfin', hres', hfind, hc]
  · intro hfin hres hsorted f hf
    have hfin' : ¬ (str "context_final.json") ∈ d.files := by simpa using hfin
    have hres' : ¬ (str "results.json") ∈ d.files := by simpa using hres
    obtain ⟨hmem, hpf, hmin⟩ := find?_first (hsorted.filter isJsonDoc) hf
    have hmem' := List.mem_filter.mp hmem
    refine ⟨hmem'.1, hmem'.2, hpf, ?_, ?_⟩
    · intro g hg hjg hcg
      have hgf : g ∈ d.files.filter isJsonDoc := List.mem_filter.mpr ⟨hg, hjg⟩
      rcases hmin g hgf hcg with rfl | hle
      · exact le_refl _
      · exact hle
    · intro c hc
      simp [getExperimentDir, hfin', hres', hf, hc]
  · intro hfin hres hnone
    have hfin' : ¬ (str "context_final.json") ∈ d.files := by simpa using hfin
    have hres' : ¬ (str "results.json") ∈ d.files := by simpa using hres
    have hf : (d.files.filter isJsonDoc).find? (fun g => (str "context_").isPrefixOf g) = none := by
      rw [List.find?_eq_none]
      intro x hx
      have hx' := List.mem_filter.mp hx
      have hb := hnone x hx'.1
      rw [hx'.2] at hb
      simp only [Bool.true_and] at hb
      simp [hb]
    simp [getExperimentDir, hfin', hres', hf]

/-- C5, counterexample to the frozen claim.  On a directory whose listing is
not lexically sorted (`context_b.json` listed before `context_a.json`), the
endpoint returns the context of `context_b.json` — the first match in
listing order — although `context_a.json` is the lexically first
stage-context document present, and the two documents' contents differ. -/
theorem getExperiment_lexical_first_counterexample :
    getExperiment (str "exp") unsortedFs
      = GetResponse.ok (mkDetail (str "exp") unsortedDir)
          (GetPayload.context (normalizeContext docB))
    ∧ unsortedDir.readContext (str "context_b.json") = some docB
    ∧ unsortedDir.readContext (str "context_a.json") = some docA
    ∧ (str "context_a.json") ∈ unsortedDir.files
    ∧ isJsonDoc (str "context_a.json") = true
    ∧ (str "context_").isPrefixOf (str "context_a.json") = true
    ∧ (str "context_a.json") < (str "context_b.json")
    ∧ GetResponse.ok (mkDetail (str "exp") unsortedDir)
          (GetPayload.context (normalizeContext docB))
        ≠ GetResponse.ok (mkDetail (str "exp") unsortedDir)
          (GetPayload.context (normalizeContext docA)) := by
  refine ⟨by decide, by decide, by decide, by decide, by decide, by decide, by decide, by decide⟩


/-- Witness for C5: with both a final context and a results bundle present,
the final context wins. -/
theorem getExperiment_source_precedence_witness :
    getExperiment (str "experiment_1") finalFs
      = GetResponse.ok (mkDetail (str "experiment_1") finalDir)
          (GetPayload.context (normalizeContext finalDoc)) :=
  (getExperiment_source_precedence (str "experiment_1") finalFs finalDir rfl).1
    (by decide) finalDoc rfl

/-- C8, counterexample.  For an id naming a directory that does not exist,
the per-id endpoint returns the generic 500 failure, not the spec's
`NotFound` (404): `readdir` throws and the catch-all maps every error to
status 500. -/
theorem getExperiment_missing_dir_counterexample :
    getExperiment (str "missing") (fun _ => (none : Option (DirData Nat)))
      = GetResponse.failure 500 (str "Failed to load experiment")
    ∧ (500 : Nat) ≠ notFoundStatus := ⟨rfl, by decide⟩

/-- C8, amended.  For every id whose directory is missing, the endpoint
returns the single generic failure response (status 500, "Failed to load
experiment") — the same error kind as any other I/O failure — rather than
a distinct `NotFound`. -/
theorem getExperiment_missing_dir_failure {V : Type} (id : Str)
    (fs : Str → Option (DirData V)) (h : fs id = none) :
    getExperiment id fs = GetResponse.failure 500 (str "Failed to load experiment") := by
  unfold getExperiment
  rw [h]

/-- Witness for the amended C8. -/
theorem getExperiment_missing_dir_failure_witness :
    getExperiment (str "gone") (fun _ => (none : Option (DirData Nat)))
      = GetResponse.failure 500 (str "Failed to load experiment") :=
  getExperiment_missing_dir_failure (str "gone") (fun _ => none) rfl

/-- C7.  If `id` or `filename` contains a parent-directory segment `..`,
the design-asset endpoint answers `BadRequest` (HTTP 400) and touches no
filesystem path at all. -/
theorem design_asset_rejects_traversal (root : Str) (fsRead : Str → Option Str)
    (id filename : Str)
    (h : strIncludes (str "..") id = true ∨ strIncludes (str "..") filename = true) :
    (∃ msg, (getDesignAsset root fsRead id filename).1 = AssetResponse.badRequest msg)
    ∧ (getDesignAsset root fsRead id filename).2 = [] := by
  unfold getDesignAsset
  by_cases he : (id.isEmpty || filename.isEmpty) = true
  · simp [he]
  · have h2 : (strIncludes (str "..") id || strIncludes (str "..") filename) = true := by
      rcases h with h | h <;> simp [h]
    simp [he, h2]


/-- Witness for C7 at the concrete traversal input `"../../secret"`. -/
theorem design_asset_rejects_traversal_witness :
    strIncludes (str "..") (str "../../secret") = true
    ∧ (∃ msg, (getDesignAsset (str "/experiments") travFs (str "exp1")
        (str "../../secret")).1 = AssetResponse.badRequest msg)
    ∧ (getDesignAsset (str "/experiments") travFs (str "exp1") (str "../../secret")).2 = [] :=
  ⟨by decide,
    design_asset_rejects_traversal (str "/experiments") travFs (str "exp1")
      (str "../../secret") (Or.inr (by decide))⟩
